import Mathlib

/-!
Verification of the admin answer-reveal page of a live multi-team quiz game
(`src/pages/AdminAnswerRevealPage.tsx`): the game-progression state machine
fired by the admin "advance" button, the status/results gate in front of the
answer/score aggregation pass, the per-question answer board (normalization
and sorting), the correct-answer display text resolution, and the dense
leaderboard ranking with tie handling.

The definitions below are a shallow embedding of that page.  JavaScript
numbers are modelled as `Int` (with `Int.tmod` for the JS `%` operator),
absent / `undefined` / `null` values as `Option`, and the stable
`Array.prototype.sort` as `List.insertionSort` with the page's comparator.
`localeCompare` on team names is modelled as code-point lexicographic
comparison of the underlying character lists.
-/

/-- Game status values, mirroring the string enum used by the page
(`lobby`, `question_display`, `answer_reveal`, `leaderboard`, `break`,
`game_end`). -/
inductive GameStatus where
  | lobby
  | question_display
  | answer_reveal
  | leaderboard
  | breakScreen
  | game_end
deriving DecidableEq, Repr

/-- A quiz question as the page consumes it: category label, option list for
multiple-choice categories, `correctAnswerIndex` into the options, and a
free-text `correctAnswer`.  Absent fields are `none`. -/
structure Question where
  id : String
  text : String
  category : String
  options : Option (List String)
  correctAnswerIndex : Option Int
  correctAnswer : Option String
deriving DecidableEq, Repr

/-- The remote game record fields the page reads and writes. -/
structure Game where
  status : GameStatus
  currentQuestionIndex : Int
  questionOrder : List String
  questions : List Question
  resultsReady : Bool
deriving DecidableEq, Repr

/-- A team row: identifier, display name, and the `isActive` soft-delete
marker (absent means active; only `isActive === false` excludes a team). -/
structure Team where
  id : String
  name : String
  isActive : Option Bool
deriving DecidableEq, Repr

/-- Per-team, per-question processed answer produced by the external scoring
collaborator; every field may be absent. -/
structure TeamAnswerResult where
  selectedAnswer : Option String
  isCorrect : Option Bool
  pointsAwarded : Option Int
  answerIndex : Option Int
deriving DecidableEq, Repr

/-- The normalized per-team answer row the page renders (interface
`TeamAnswerDisplay` in the source). -/
structure TeamAnswerDisplay where
  teamId : String
  teamName : String
  selectedAnswer : Option String
  isCorrect : Option Bool
  pointsAwarded : Option Int
  answerIndex : Option Int
deriving DecidableEq, Repr

/-- Category block size; the page defines `QUESTIONS_PER_CATEGORY = 8`. -/
def QUESTIONS_PER_CATEGORY : Int := 8

/-- The partial update written by one `updateGameData` call: only the fields
present (`some`) are written.  Mirrors `const updates: Partial<Game> = {}`
with the three fields `handleNextStep` ever sets. -/
structure GameUpdates where
  status : Option GameStatus := none
  currentQuestionIndex : Option Int := none
  resultsReady : Option Bool := none
deriving DecidableEq, Repr

/-- The decision core of `handleNextStep` (lines 192-222 of the page):
given the current game snapshot, the single partial update the advance
action issues.  Branch order and conditions are copied from the source:
`isEndOfGame` first, then `isBreakTime`, else next question. -/
def computeAdvanceUpdates (game : Game) : GameUpdates :=
  let currentQuestionIndex := game.currentQuestionIndex
  let totalQuestions : Int := game.questionOrder.length
  let nextQuestionIndex := currentQuestionIndex + 1
  let isEndOfGame : Bool := decide (totalQuestions ≤ nextQuestionIndex)
  let isBreakTime : Bool :=
    decide (0 < nextQuestionIndex)
      && decide (nextQuestionIndex.tmod QUESTIONS_PER_CATEGORY = 0)
      && !isEndOfGame
  if isEndOfGame then
    { status := some GameStatus.game_end }
  else if isBreakTime then
    { status := some GameStatus.leaderboard }
  else
    { status := some GameStatus.question_display,
      currentQuestionIndex := some nextQuestionIndex,
      resultsReady := some false }

/-- Applying a partial update to the game record: absent fields are left
unchanged (the store's atomic partial-update semantics). -/
def applyGameUpdates (game : Game) (u : GameUpdates) : Game :=
  { game with
    status := u.status.getD game.status,
    currentQuestionIndex := u.currentQuestionIndex.getD game.currentQuestionIndex,
    resultsReady := u.resultsReady.getD game.resultsReady }

/-- A 16-question order used in concrete instances. -/
def exOrder16 : List String := List.replicate 16 "q"

/-- A snapshot on the last question (index 15 of 16). -/
def exGameLast : Game :=
  { status := GameStatus.answer_reveal, currentQuestionIndex := 15,
    questionOrder := exOrder16, questions := [], resultsReady := true }

/-- A snapshot at a category boundary (index 7 of 16). -/
def exGameBoundary : Game :=
  { status := GameStatus.answer_reveal, currentQuestionIndex := 7,
    questionOrder := exOrder16, questions := [], resultsReady := true }

/-- A mid-category snapshot (index 2 of 16). -/
def exGameMid : Game :=
  { status := GameStatus.answer_reveal, currentQuestionIndex := 2,
    questionOrder := exOrder16, questions := [], resultsReady := true }

/-- Claim C2: when `currentQuestionIndex + 1 ≥ length(questionOrder)`, the
advance action issues a single update that sets `status` to `game_end` and
touches no other field, regardless of the category-boundary condition; the
applied snapshot differs from the old one only in `status`. -/
theorem advance_end_of_game (game : Game)
    (h : (game.questionOrder.length : Int) ≤ game.currentQuestionIndex + 1) :
    computeAdvanceUpdates game
      = { status := some GameStatus.game_end,
          currentQuestionIndex := none, resultsReady := none }
    ∧ applyGameUpdates game (computeAdvanceUpdates game)
      = { game with status := GameStatus.game_end } := by
  have hb : decide ((game.questionOrder.length : Int) ≤ game.currentQuestionIndex + 1) = true :=
    decide_eq_true h
  constructor
  · simp [computeAdvanceUpdates, hb]
  · simp [computeAdvanceUpdates, applyGameUpdates, hb]

/-- Witness for C2: on the last question of a 16-question order, advance
writes exactly `status := game_end`. -/
theorem advance_end_of_game_witness :
    computeAdvanceUpdates exGameLast
      = { status := some GameStatus.game_end,
          currentQuestionIndex := none, resultsReady := none } :=
  (advance_end_of_game exGameLast (by decide)).1

/-- Claim C3: when the game is not ending and `currentQuestionIndex + 1` is a
positive multiple of `QUESTIONS_PER_CATEGORY` (the fixed constant 8), the
advance action issues a single update setting `status` to `leaderboard` and
leaves `currentQuestionIndex` and `resultsReady` unchanged. -/
theorem advance_category_boundary (game : Game)
    (h1 : game.currentQuestionIndex + 1 < (game.questionOrder.length : Int))
    (h2 : 0 < game.currentQuestionIndex + 1)
    (h3 : (game.currentQuestionIndex + 1).tmod QUESTIONS_PER_CATEGORY = 0) :
    QUESTIONS_PER_CATEGORY = 8
    ∧ computeAdvanceUpdates game
      = { status := some GameStatus.leaderboard,
          currentQuestionIndex := none, resultsReady := none }
    ∧ applyGameUpdates game (computeAdvanceUpdates game)
      = { game with status := GameStatus.leaderboard } := by
  have hb : decide ((game.questionOrder.length : Int) ≤ game.currentQuestionIndex + 1) = false := by
    simp [decide_eq_false_iff_not]
    omega
  have hp : decide (0 < game.currentQuestionIndex + 1) = true := decide_eq_true h2
  have hm : decide ((game.currentQuestionIndex + 1).tmod QUESTIONS_PER_CATEGORY = 0) = true :=
    decide_eq_true h3
  refine ⟨rfl, ?_, ?_⟩
  · simp [computeAdvanceUpdates, hb, hp, hm]
  · simp [computeAdvanceUpdates, applyGameUpdates, hb, hp, hm]

/-- Witness for C3: with a 16-question order and current index 7, advance
writes exactly `status := leaderboard`, and the applied snapshot keeps
index 7. -/
theorem advance_category_boundary_witness :
    computeAdvanceUpdates exGameBoundary
      = { status := some GameStatus.leaderboard,
          currentQuestionIndex := none, resultsReady := none }
    ∧ (applyGameUpdates exGameBoundary (computeAdvanceUpdates exGameBoundary)).currentQuestionIndex
      = 7 :=
  ⟨(advance_category_boundary exGameBoundary (by decide) (by decide) (by decide)).2.1,
   by rw [(advance_category_boundary exGameBoundary (by decide) (by decide) (by decide)).2.2]; rfl⟩

/-- Claim C4: when neither the end-of-game condition nor the
category-boundary condition holds, advance issues one update that sets
`status` to `question_display`, increments `currentQuestionIndex` by exactly
one, and resets `resultsReady` to `false`. -/
theorem advance_next_question (game : Game)
    (h1 : game.currentQuestionIndex + 1 < (game.questionOrder.length : Int))
    (h2 : ¬(0 < game.currentQuestionIndex + 1
            ∧ (game.currentQuestionIndex + 1).tmod QUESTIONS_PER_CATEGORY = 0)) :
    computeAdvanceUpdates game
      = { status := some GameStatus.question_display,
          currentQuestionIndex := some (game.currentQuestionIndex + 1),
          resultsReady := some false }
    ∧ applyGameUpdates game (computeAdvanceUpdates game)
      = { game with
          status := GameStatus.question_display,
          currentQuestionIndex := game.currentQuestionIndex + 1,
          resultsReady := false } := by
  have hb : decide ((game.questionOrder.length : Int) ≤ game.currentQuestionIndex + 1) = false := by
    simp [decide_eq_false_iff_not]
    omega
  have hbt : (decide (0 < game.currentQuestionIndex + 1)
      && decide ((game.currentQuestionIndex + 1).tmod QUESTIONS_PER_CATEGORY = 0)) = false := by
    rcases Decidable.not_and_iff_or_not.mp h2 with h | h
    · simp [decide_eq_false_iff_not, h]
    · simp [decide_eq_false_iff_not, h]
  constructor
  · simp [computeAdvanceUpdates, hb, hbt]
  · simp [computeAdvanceUpdates, applyGameUpdates, hb, hbt]

/-- Witness for C4: current index 2 of 16 advances to `question_display`,
index 3, `resultsReady = false`. -/
theorem advance_next_question_witness :
    computeAdvanceUpdates exGameMid
      = { status := some GameStatus.question_display,
          currentQuestionIndex := some 3, resultsReady := some false } :=
  (advance_next_question exGameMid (by decide) (by decide)).1

/-- Result of the status/readiness gate in front of the aggregation pass:
either the pass proceeds, or the effect returns early after setting the
`loading` flag to the given value. -/
inductive RevealGateResult where
  | proceed
  | wait (showLoading : Bool)
deriving DecidableEq, Repr

/-- The gate at the top of the page's main effect (lines 69-75 of the
source): if `game.status !== 'answer_reveal' || game.resultsReady !== true`,
the effect calls `setLoading(game.status === 'answer_reveal')` and returns
early; otherwise the aggregation pass (`processAndFetchData`) runs. -/
def revealGate (game : Game) : RevealGateResult :=
  if game.status ≠ GameStatus.answer_reveal ∨ game.resultsReady ≠ true then
    RevealGateResult.wait (decide (game.status = GameStatus.answer_reveal))
  else
    RevealGateResult.proceed

/-- Whether the page renders the spinner: `loading || gameLoading` in the
render branch of the source. -/
def showsSpinner (loading gameLoading : Bool) : Bool :=
  loading || gameLoading

/-- A delivered snapshot whose status has moved past `answer_reveal`. -/
def exWaitingGame : Game :=
  { status := GameStatus.question_display, currentQuestionIndex := 0,
    questionOrder := exOrder16, questions := [], resultsReady := true }

/-- Counterexample to claim C5: this delivered snapshot violates the gate's
precondition (its status is not `answer_reveal`), so the aggregation pass is
skipped, but the gate sets the `loading` flag to `false`, so the page does
not show the loading indicator — contradicting the claim that every blocked
snapshot shows loading. -/
theorem reveal_gate_counterexample :
    (exWaitingGame.status ≠ GameStatus.answer_reveal ∨ exWaitingGame.resultsReady ≠ true)
    ∧ revealGate exWaitingGame = RevealGateResult.wait false
    ∧ showsSpinner false false = false := by
  refine ⟨Or.inl (by decide), by decide, by decide⟩

/-- Claim C5 as amended: the aggregation pass proceeds exactly when
`status = answer_reveal` and `resultsReady = true` hold simultaneously; on
every other snapshot the effect returns early without fetching, and it sets
the `loading` flag to `true` (showing the spinner) only when the status is
already `answer_reveal` (awaiting results) — when the status is anything
else the flag is set to `false` and no loading indicator is shown. -/
theorem reveal_gate_amended (game : Game) :
    (revealGate game = RevealGateResult.proceed
      ↔ (game.status = GameStatus.answer_reveal ∧ game.resultsReady = true))
    ∧ (revealGate game ≠ RevealGateResult.proceed →
        revealGate game
          = RevealGateResult.wait (decide (game.status = GameStatus.answer_reveal))) := by
  by_cases h1 : game.status = GameStatus.answer_reveal
  · by_cases h2 : game.resultsReady = true
    · refine ⟨?_, ?_⟩
      · simp [revealGate, h1, h2]
      · intro h
        exfalso
        apply h
        simp [revealGate, h1, h2]
    · refine ⟨?_, ?_⟩
      · simp [revealGate, h1, h2]
      · intro _
        simp [revealGate, h1, h2]
  · refine ⟨?_, ?_⟩
    · simp [revealGate, h1]
    · intro _
      simp [revealGate, h1]

/-- Witness for the amended C5: on the blocked snapshot above, the gate
returns early with the loading flag cleared. -/
theorem reveal_gate_amended_witness :
    revealGate exWaitingGame = RevealGateResult.wait false :=
  (reveal_gate_amended exWaitingGame).2 (by decide)

/-- The team display name: `team.name || 'Team ' + team.id.substring(0, 4)`. -/
def teamDisplayName (team : Team) : String :=
  if team.name ≠ "" then team.name else "Team " ++ team.id.take 4

/-- Normalization of one team's fetched answer result into the rendered row
(lines 108-130 of the source): a present result is copied field by field; an
absent result yields the unanswered sentinel text, `isCorrect = null`,
`pointsAwarded = 0`, `answerIndex = -1`. -/
def toTeamAnswerDisplay (team : Team) (result : Option TeamAnswerResult) :
    TeamAnswerDisplay :=
  match result with
  | some r =>
    { teamId := team.id, teamName := teamDisplayName team,
      selectedAnswer := r.selectedAnswer, isCorrect := r.isCorrect,
      pointsAwarded := r.pointsAwarded, answerIndex := r.answerIndex }
  | none =>
    { teamId := team.id, teamName := teamDisplayName team,
      selectedAnswer := some "nije odgovoreno", isCorrect := none,
      pointsAwarded := some 0, answerIndex := some (-1) }

/-- Claim C7: an absent `TeamAnswerResult` yields a row with
`isCorrect = null`, `pointsAwarded = 0`, `answerIndex = -1`, and the
unanswered sentinel text; a present result is copied unchanged into the row
(`selectedAnswer`, `isCorrect`, `pointsAwarded`, `answerIndex`). -/
theorem team_answer_display_normalization (team : Team) (r : TeamAnswerResult) :
    (toTeamAnswerDisplay team none).isCorrect = none
    ∧ (toTeamAnswerDisplay team none).pointsAwarded = some 0
    ∧ (toTeamAnswerDisplay team none).answerIndex = some (-1)
    ∧ (toTeamAnswerDisplay team none).selectedAnswer = some "nije odgovoreno"
    ∧ (toTeamAnswerDisplay team (some r)).selectedAnswer = r.selectedAnswer
    ∧ (toTeamAnswerDisplay team (some r)).isCorrect = r.isCorrect
    ∧ (toTeamAnswerDisplay team (some r)).pointsAwarded = r.pointsAwarded
    ∧ (toTeamAnswerDisplay team (some r)).answerIndex = r.answerIndex := by
  refine ⟨rfl, rfl, rfl, rfl, rfl, rfl, rfl, rfl⟩

/-- State of the advance control: the `isNavigating` in-flight flag together
with the sequence of updates actually sent to the store. -/
structure AdvanceCtrl where
  isNavigating : Bool
  issuedUpdates : List GameUpdates
deriving DecidableEq, Repr

/-- One press of the advance button (`handleNextStep`, lines 187-227): if
`isNavigating` is set the press is ignored and nothing is written; otherwise
the flag is raised and exactly one partial update is issued. -/
def handleNextStepTrigger (game : Game) (s : AdvanceCtrl) : AdvanceCtrl :=
  if s.isNavigating then s
  else
    { isNavigating := true,
      issuedUpdates := s.issuedUpdates ++ [computeAdvanceUpdates game] }

/-- The catch handler of `handleNextStep` (lines 239-243): on a failed
update the in-flight flag is reset so the operator can retry. -/
def onUpdateFailure (s : AdvanceCtrl) : AdvanceCtrl :=
  { s with isNavigating := false }

/-- Claim C9: starting with the guard clear, a second advance press fired
while the first is in flight changes nothing (the control state after the
second press equals the state after the first), so the two presses issue
exactly one update; and after a failed update the guard is reset, so a
retry press issues a fresh update. -/
theorem advance_guard_single_update (game : Game) (s : AdvanceCtrl)
    (h : s.isNavigating = false) :
    handleNextStepTrigger game (handleNextStepTrigger game s)
      = handleNextStepTrigger game s
    ∧ (handleNextStepTrigger game (handleNextStepTrigger game s)).issuedUpdates
      = s.issuedUpdates ++ [computeAdvanceUpdates game]
    ∧ (handleNextStepTrigger game (onUpdateFailure (handleNextStepTrigger game s))).issuedUpdates
      = s.issuedUpdates ++ [computeAdvanceUpdates game, computeAdvanceUpdates game] := by
  refine ⟨?_, ?_, ?_⟩
  · simp [handleNextStepTrigger, h]
  · simp [handleNextStepTrigger, h]
  · simp [handleNextStepTrigger, onUpdateFailure, h]

/-- Witness for C9: from a fresh control state, two presses on the
mid-category snapshot issue exactly one update. -/
theorem advance_guard_single_update_witness :
    (handleNextStepTrigger exGameMid
        (handleNextStepTrigger exGameMid ⟨false, []⟩)).issuedUpdates
      = [computeAdvanceUpdates exGameMid] :=
  (advance_guard_single_update exGameMid ⟨false, []⟩ rfl).2.1

/-- Code-point lexicographic comparison of character lists, the model of
`String.prototype.localeCompare` used by the answer-board sort. -/
def strCmpChars : List Char → List Char → Int
  | [], [] => 0
  | [], _ :: _ => -1
  | _ :: _, [] => 1
  | a :: as, b :: bs => if a < b then -1 else if b < a then 1 else strCmpChars as bs

/-- `a.localeCompare(b)`: negative when `a` sorts before `b`, zero when
equal, positive when after. -/
def localeCompare (a b : String) : Int :=
  strCmpChars a.data b.data

/-- The answer-board comparator (lines 133-141 of the source): correct
answers first (`isCorrect ?? false`), then higher `pointsAwarded ?? 0`
first, then ascending team name. -/
def answerCompare (a b : TeamAnswerDisplay) : Int :=
  let aCorrect := a.isCorrect.getD false
  let bCorrect := b.isCorrect.getD false
  if aCorrect ≠ bCorrect then (if bCorrect then 1 else -1)
  else
    let aPoints := a.pointsAwarded.getD 0
    let bPoints := b.pointsAwarded.getD 0
    if aPoints ≠ bPoints then bPoints - aPoints
    else localeCompare a.teamName b.teamName

/-- The relation under which the page's stable `Array.prototype.sort` keeps
`a` no later than `b`: the comparator is non-positive. -/
def answerLE (a b : TeamAnswerDisplay) : Prop :=
  answerCompare a b ≤ 0

instance : DecidableRel answerLE :=
  fun a b => inferInstanceAs (Decidable (answerCompare a b ≤ 0))

/-- The sorted answer board: a stable sort of the rows under the page's
comparator. -/
def sortAnswers (rows : List TeamAnswerDisplay) : List TeamAnswerDisplay :=
  List.insertionSort answerLE rows

/-- Example rows from the spec's answer-sort test vector:
`(isCorrect, points, name)` = `(true,10,"B")`, `(true,10,"A")`,
`(false,0,"C")`, `(null,0,"D")`. -/
def exRowB : TeamAnswerDisplay :=
  { teamId := "b", teamName := "B", selectedAnswer := some "x",
    isCorrect := some true, pointsAwarded := some 10, answerIndex := some 0 }

/-- Second correct row of the test vector. -/
def exRowA : TeamAnswerDisplay :=
  { teamId := "a", teamName := "A", selectedAnswer := some "x",
    isCorrect := some true, pointsAwarded := some 10, answerIndex := some 0 }

/-- Incorrect row of the test vector. -/
def exRowC : TeamAnswerDisplay :=
  { teamId := "c", teamName := "C", selectedAnswer := some "y",
    isCorrect := some false, pointsAwarded := some 0, answerIndex := some 1 }

/-- Unanswered row of the test vector. -/
def exRowD : TeamAnswerDisplay :=
  { teamId := "d", teamName := "D", selectedAnswer := some "nije odgovoreno",
    isCorrect := none, pointsAwarded := some 0, answerIndex := some (-1) }

/-- Claim C6: the comparator places rows with `isCorrect = true` strictly
before rows whose `isCorrect` is `false` or `null` (both falsy values
compare equal at this stage), breaks ties by descending `pointsAwarded`
(null as 0), and finally by ascending locale comparison of team names; on
the spec's test vector the sorted order of names is `A, B, C, D`. -/
theorem answer_sort_ordering (a b : TeamAnswerDisplay) :
    (a.isCorrect.getD false = true → b.isCorrect.getD false = false →
      answerCompare a b < 0)
    ∧ (a.isCorrect.getD false = b.isCorrect.getD false →
        a.pointsAwarded.getD 0 ≠ b.pointsAwarded.getD 0 →
        (answerCompare a b < 0 ↔ b.pointsAwarded.getD 0 < a.pointsAwarded.getD 0))
    ∧ (a.isCorrect.getD false = b.isCorrect.getD false →
        a.pointsAwarded.getD 0 = b.pointsAwarded.getD 0 →
        answerCompare a b = localeCompare a.teamName b.teamName)
    ∧ (sortAnswers [exRowB, exRowA, exRowC, exRowD]).map TeamAnswerDisplay.teamName
      = ["A", "B", "C", "D"] := by
  refine ⟨?_, ?_, ?_, by decide⟩
  · intro ha hb
    simp [answerCompare, ha, hb]
  · intro hc hp
    simp [answerCompare, hc, hp]
  · intro hc hp
    simp [answerCompare, hc, hp]

/-- Witness for C6: the correct row `A` sorts strictly before the incorrect
row `C`. -/
theorem answer_sort_ordering_witness :
    answerCompare exRowA exRowC < 0 :=
  (answer_sort_ordering exRowA exRowC).1 (by decide) (by decide)

/-- Truthiness of an optional string under JavaScript rules: present and
non-empty. -/
def optTruthy (s : Option String) : Bool :=
  s.getD "" != ""

/-- The distinguished free-text category of the page. -/
def FREE_TEXT_CATEGORY : String := "Pogodite crtani"

/-- The degraded-display placeholder used when the free-text category has no
`correctAnswer`. -/
def MISSING_ANSWER_PLACEHOLDER : String :=
  "Greška: Tačan odgovor nedostaje u podacima pitanja"

/-- The correct-answer display text (lines 269-282 of the source).  `none`
models the JavaScript `undefined` produced by an out-of-range index read.
For the free-text category `correctAnswer` is used directly with the
placeholder as fallback; otherwise, when `options` exists and
`correctAnswerIndex` is a number `≥ 0`, the element at that index is read;
otherwise a truthy `correctAnswer` is used; otherwise the default `"N/A"`
stands. -/
def derivedCorrectAnswerText (currentQuestion : Option Question) : Option String :=
  match currentQuestion with
  | none => some "N/A"
  | some q =>
    if q.category = FREE_TEXT_CATEGORY then
      if optTruthy q.correctAnswer then q.correctAnswer
      else some MISSING_ANSWER_PLACEHOLDER
    else
      match q.options, q.correctAnswerIndex with
      | some opts, some i =>
        if 0 ≤ i then opts[i.toNat]?
        else if optTruthy q.correctAnswer then q.correctAnswer
        else some "N/A"
      | some _, none =>
        if optTruthy q.correctAnswer then q.correctAnswer
        else some "N/A"
      | none, _ =>
        if optTruthy q.correctAnswer then q.correctAnswer
        else some "N/A"

/-- Claim C8: for the distinguished free-text category the text is
`correctAnswer`, degrading to the visible placeholder when it is missing or
empty; for any other category the text is `options[correctAnswerIndex]`
whenever `options` exists and the index is a number `≥ 0`, and otherwise
falls back to a truthy `correctAnswer`, else `"N/A"`. -/
theorem correct_answer_text_resolution (q : Question) :
    (q.category = FREE_TEXT_CATEGORY →
      derivedCorrectAnswerText (some q)
        = if optTruthy q.correctAnswer then q.correctAnswer
          else some MISSING_ANSWER_PLACEHOLDER)
    ∧ (∀ opts i, q.category ≠ FREE_TEXT_CATEGORY → q.options = some opts →
        q.correctAnswerIndex = some i → 0 ≤ i →
        derivedCorrectAnswerText (some q) = opts[i.toNat]?)
    ∧ (q.category ≠ FREE_TEXT_CATEGORY →
        (q.options = none ∨ q.correctAnswerIndex = none
          ∨ (∀ i, q.correctAnswerIndex = some i → i < 0)) →
        derivedCorrectAnswerText (some q)
          = if optTruthy q.correctAnswer then q.correctAnswer
            else some "N/A") := by
  refine ⟨?_, ?_, ?_⟩
  · intro h
    simp [derivedCorrectAnswerText, h]
  · intro opts i hcat hopts hidx hnn
    simp [derivedCorrectAnswerText, hcat, hopts, hidx, hnn]
  · intro hcat hfall
    rcases hfall with h | h | h
    · simp [derivedCorrectAnswerText, hcat, h]
    · rcases hopts : q.options with _ | opts
      · simp [derivedCorrectAnswerText, hcat, hopts]
      · simp [derivedCorrectAnswerText, hcat, hopts, h]
    · rcases hopts : q.options with _ | opts
      · simp [derivedCorrectAnswerText, hcat, hopts]
      · rcases hidx : q.correctAnswerIndex with _ | i
        · simp [derivedCorrectAnswerText, hcat, hopts, hidx]
        · have hneg : i < 0 := h i hidx
          have : ¬(0 ≤ i) := by omega
          simp [derivedCorrectAnswerText, hcat, hopts, hidx, this]

/-- An example free-text question. -/
def exQuestionFree : Question :=
  { id := "q1", text := "Koji je ovo crtani?", category := FREE_TEXT_CATEGORY,
    options := none, correctAnswerIndex := none,
    correctAnswer := some "Tom i Dzeri" }

/-- Witness for C8: the free-text example resolves to its `correctAnswer`. -/
theorem correct_answer_text_resolution_witness :
    derivedCorrectAnswerText (some exQuestionFree) = some "Tom i Dzeri" :=
  (correct_answer_text_resolution exQuestionFree).1 rfl

/-- A team combined with its fetched cumulative score (the spread
`{ ...team, points }` of lines 150-153): a missing score entry defaults to
0 points. -/
structure ScoredTeam where
  id : String
  name : String
  isActive : Option Bool
  points : Int
deriving DecidableEq, Repr

/-- `points: allScores[team.id]?.totalScore || 0`. -/
def withScore (scores : String → Option Int) (team : Team) : ScoredTeam :=
  { id := team.id, name := team.name, isActive := team.isActive,
    points := (scores team.id).getD 0 }

/-- A team with its computed leaderboard rank (interface `RankedTeam`). -/
structure RankedTeam where
  team : ScoredTeam
  rank : Nat
deriving DecidableEq, Repr

/-- The sort relation of `sort((a, b) => b.points - a.points)`: `a` stays no
later than `b` when the comparator is non-positive, i.e. `b.points ≤
a.points`. -/
def pointsDesc (a b : ScoredTeam) : Prop :=
  b.points ≤ a.points

instance : DecidableRel pointsDesc :=
  fun a b => inferInstanceAs (Decidable (b.points ≤ a.points))

/-- The stable descending-points sort of line 156-157. -/
def sortTeamsByPoints (teams : List ScoredTeam) : List ScoredTeam :=
  List.insertionSort pointsDesc teams

/-- The `forEach` ranking loop of lines 163-170: `index` is the 0-based
position, `currentRank` and `previousPoints` the two mutable variables; the
rank advances to `index + 1` only when `index > 0` and the current score is
strictly below `previousPoints`, which is then updated. -/
def rankLoop : List ScoredTeam → Nat → Nat → Int → List RankedTeam
  | [], _, _, _ => []
  | t :: ts, index, currentRank, previousPoints =>
    if 0 < index ∧ t.points < previousPoints then
      { team := t, rank := index + 1 } :: rankLoop ts (index + 1) (index + 1) t.points
    else
      { team := t, rank := currentRank } :: rankLoop ts (index + 1) currentRank previousPoints

/-- The ranked list built from an already-sorted team array (lines 159-171):
empty input yields an empty board, otherwise the loop starts at index 0 with
`currentRank = 1` and `previousPoints` the first team's score. -/
def rankedTeamsData : List ScoredTeam → List RankedTeam
  | [] => []
  | t0 :: ts => rankLoop (t0 :: ts) 0 1 t0.points

/-- The whole ranking pipeline of steps 5-6 of the aggregation pass: join
active teams with their scores, sort descending, assign ranks. -/
def computeRankedTeams (activeTeams : List Team) (scores : String → Option Int) :
    List RankedTeam :=
  rankedTeamsData (sortTeamsByPoints (activeTeams.map (withScore scores)))

/-- The ranking rule exactly as the claim words it: rank 1 for the first
team; each subsequent team keeps the current rank when its score equals the
last-seen distinct score, and otherwise takes its 1-based position as rank
(updating the last-seen distinct score).  `pos` is the 1-based position of
the head of the remaining list. -/
def specRankStep : List Int → Nat → Nat → Int → List Nat
  | [], _, _, _ => []
  | s :: ss, pos, currentRank, lastSeen =>
    if s = lastSeen then currentRank :: specRankStep ss (pos + 1) currentRank lastSeen
    else pos :: specRankStep ss (pos + 1) pos s

/-- Ranks assigned to a score list by the claim's rule. -/
def specRanking : List Int → List Nat
  | [] => []
  | s :: ss => 1 :: specRankStep ss 2 1 s

/-- `descendingFrom p ts`: every score in `ts` is at most `p` and the list
is non-increasing. -/
def descendingFrom (p : Int) : List ScoredTeam → Bool
  | [] => true
  | t :: ts => decide (t.points ≤ p) && descendingFrom t.points ts

/-- The team list is sorted by non-increasing points. -/
def descendingByPoints : List ScoredTeam → Bool
  | [] => true
  | t :: ts => descendingFrom t.points ts

theorem rankLoop_map_team (ts : List ScoredTeam) :
    ∀ (index currentRank : Nat) (previousPoints : Int),
      (rankLoop ts index currentRank previousPoints).map RankedTeam.team = ts := by
  induction ts with
  | nil => intro _ _ _; rfl
  | cons t ts ih =>
    intro index currentRank previousPoints
    by_cases h : 0 < index ∧ t.points < previousPoints
    · simp [rankLoop, h, ih]
    · simp [rankLoop, h, ih]

theorem rankedTeamsData_map_team (teams : List ScoredTeam) :
    (rankedTeamsData teams).map RankedTeam.team = teams := by
  cases teams with
  | nil => rfl
  | cons t0 ts => simpa [rankedTeamsData] using rankLoop_map_team (t0 :: ts) 0 1 t0.points

theorem rankLoop_rank_le (ts : List ScoredTeam) :
    ∀ (index currentRank : Nat) (previousPoints : Int), currentRank ≤ index + 1 →
      ∀ (j : Nat) (hj : j < (rankLoop ts index currentRank previousPoints).length),
        ((rankLoop ts index currentRank previousPoints)[j]).rank ≤ index + j + 1 := by
  induction ts with
  | nil =>
    intro _ _ _ _ j hj
    simp [rankLoop] at hj
  | cons t ts ih =>
    intro index currentRank previousPoints hcr j hj
    by_cases h : 0 < index ∧ t.points < previousPoints
    · simp only [rankLoop, if_pos h] at hj ⊢
      cases j with
      | zero => simp
      | succ j' =>
        have hj' : j' < (rankLoop ts (index + 1) (index + 1) t.points).length := by
          simpa using hj
        have := ih (index + 1) (index + 1) t.points (by omega) j' hj'
        simpa using by omega
    · simp only [rankLoop, if_neg h] at hj ⊢
      cases j with
      | zero =>
        simp only [List.getElem_cons_zero]
        omega
      | succ j' =>
        have hj' : j' < (rankLoop ts (index + 1) currentRank previousPoints).length := by
          simpa using hj
        have := ih (index + 1) currentRank previousPoints (by omega) j' hj'
        simpa using by omega

theorem rankedTeamsData_rank_le (teams : List ScoredTeam) (j : Nat)
    (hj : j < (rankedTeamsData teams).length) :
    ((rankedTeamsData teams)[j]).rank ≤ j + 1 := by
  cases teams with
  | nil => simp [rankedTeamsData] at hj
  | cons t0 ts =>
    have := rankLoop_rank_le (t0 :: ts) 0 1 t0.points (by omega) j
        (by simpa [rankedTeamsData] using hj)
    simpa [rankedTeamsData] using this

theorem rankLoop_chain_le (ts : List ScoredTeam) :
    ∀ (index currentRank : Nat) (previousPoints : Int), currentRank ≤ index + 1 →
      List.Chain' (fun a b => a.rank ≤ b.rank)
          (rankLoop ts index currentRank previousPoints)
      ∧ ∀ y ∈ (rankLoop ts index currentRank previousPoints).head?, currentRank ≤ y.rank := by
  induction ts with
  | nil => intro _ _ _ _; simp [rankLoop]
  | cons t ts ih =>
    intro index currentRank previousPoints hcr
    by_cases h : 0 < index ∧ t.points < previousPoints
    · have ihh := ih (index + 1) (index + 1) t.points (by omega)
      simp only [rankLoop, if_pos h]
      constructor
      · rw [List.chain'_cons']
        refine ⟨?_, ihh.1⟩
        intro y hy
        have := ihh.2 y hy
        simp only at this ⊢
        omega
      · intro y hy
        simp only [List.head?_cons, Option.mem_def, Option.some.injEq] at hy
        subst hy
        simp only
        omega
    · have ihh := ih (index + 1) currentRank previousPoints (by omega)
      simp only [rankLoop, if_neg h]
      constructor
      · rw [List.chain'_cons']
        refine ⟨?_, ihh.1⟩
        intro y hy
        have := ihh.2 y hy
        simp only at this ⊢
        omega
      · intro y hy
        simp only [List.head?_cons, Option.mem_def, Option.some.injEq] at hy
        subst hy
        simp only
        omega

theorem rankedTeamsData_chain_le (teams : List ScoredTeam) :
    List.Chain' (fun a b => a.rank ≤ b.rank) (rankedTeamsData teams) := by
  cases teams with
  | nil => simp [rankedTeamsData]
  | cons t0 ts =>
    simpa [rankedTeamsData] using (rankLoop_chain_le (t0 :: ts) 0 1 t0.points (by omega)).1

theorem rankedTeamsData_head_rank (teams : List ScoredTeam) (h : teams ≠ []) :
    ((rankedTeamsData teams).map RankedTeam.rank).head? = some 1 := by
  cases teams with
  | nil => exact absurd rfl h
  | cons t0 ts => simp [rankedTeamsData, rankLoop]

theorem rankLoop_chain_rank_iff (ts : List ScoredTeam) :
    ∀ (index currentRank : Nat) (previousPoints : Int) (x : RankedTeam),
      x.rank = currentRank → x.team.points = previousPoints →
      0 < index → currentRank ≤ index →
      descendingFrom previousPoints ts = true →
      List.Chain' (fun a b => (a.rank = b.rank ↔ a.team.points = b.team.points))
        (x :: rankLoop ts index currentRank previousPoints) := by
  induction ts with
  | nil => intro _ _ _ _ _ _ _ _ _; simp [rankLoop]
  | cons t ts ih =>
    intro index currentRank previousPoints x hxr hxp hi hcr hdesc
    have hd : t.points ≤ previousPoints ∧ descendingFrom t.points ts = true := by
      simpa [descendingFrom] using hdesc
    by_cases hc : t.points < previousPoints
    · simp only [rankLoop, if_pos (And.intro hi hc)]
      rw [List.chain'_cons]
      constructor
      · simp only
        constructor
        · intro hr
          exfalso
          omega
        · intro hp
          exfalso
          rw [hxp] at hp
          omega
      · exact ih (index + 1) (index + 1) t.points
          { team := t, rank := index + 1 } rfl rfl (by omega) (by omega) hd.2
    · have heq : t.points = previousPoints := le_antisymm hd.1 (not_lt.mp hc)
      have hnc : ¬(0 < index ∧ t.points < previousPoints) := fun hh => hc hh.2
      simp only [rankLoop, if_neg hnc]
      rw [List.chain'_cons]
      constructor
      · simp only
        constructor
        · intro _
          rw [hxp, heq]
        · intro _
          exact hxr
      · have hd2 : descendingFrom previousPoints ts = true := heq ▸ hd.2
        exact ih (index + 1) currentRank previousPoints
          { team := t, rank := currentRank } rfl (by simpa using heq) (by omega) (by omega) hd2

theorem rankedTeamsData_chain_rank_iff (teams : List ScoredTeam)
    (h : descendingByPoints teams = true) :
    List.Chain' (fun a b => (a.rank = b.rank ↔ a.team.points = b.team.points))
      (rankedTeamsData teams) := by
  cases teams with
  | nil => simp [rankedTeamsData]
  | cons t0 ts =>
    have hd : descendingFrom t0.points ts = true := h
    have hstep : rankedTeamsData (t0 :: ts)
        = { team := t0, rank := 1 } :: rankLoop ts 1 1 t0.points := by
      simp [rankedTeamsData, rankLoop]
    rw [hstep]
    exact rankLoop_chain_rank_iff ts 1 1 t0.points
      { team := t0, rank := 1 } rfl rfl (by omega) (by omega) hd

theorem rankLoop_spec_ranks (ts : List ScoredTeam) :
    ∀ (index currentRank : Nat) (previousPoints : Int), 0 < index →
      descendingFrom previousPoints ts = true →
      (rankLoop ts index currentRank previousPoints).map RankedTeam.rank
        = specRankStep (ts.map ScoredTeam.points) (index + 1) currentRank previousPoints := by
  induction ts with
  | nil => intro _ _ _ _ _; rfl
  | cons t ts ih =>
    intro index currentRank previousPoints hi hdesc
    have hd : t.points ≤ previousPoints ∧ descendingFrom t.points ts = true := by
      simpa [descendingFrom] using hdesc
    by_cases hc : t.points < previousPoints
    · have hne : ¬(t.points = previousPoints) := by omega
      simp only [rankLoop, if_pos (And.intro hi hc), List.map_cons, specRankStep,
        if_neg hne, List.cons.injEq]
      exact ⟨trivial, ih (index + 1) (index + 1) t.points (by omega) hd.2⟩
    · have heq : t.points = previousPoints := le_antisymm hd.1 (not_lt.mp hc)
      have hnc : ¬(0 < index ∧ t.points < previousPoints) := fun hh => hc hh.2
      have hd2 : descendingFrom previousPoints ts = true := heq ▸ hd.2
      simp only [rankLoop, if_neg hnc, List.map_cons, specRankStep, if_pos heq,
        List.cons.injEq]
      exact ⟨trivial, ih (index + 1) currentRank previousPoints (by omega) hd2⟩

theorem pairwise_descendingFrom (ts : List ScoredTeam) :
    ∀ t, List.Pairwise pointsDesc (t :: ts) → descendingFrom t.points ts = true := by
  induction ts with
  | nil => intro _ _; rfl
  | cons u us ih =>
    intro t hp
    rw [List.pairwise_cons] at hp
    have h1 : u.points ≤ t.points := hp.1 u (by simp)
    simp [descendingFrom, h1, ih u hp.2]

theorem pairwise_descendingByPoints (teams : List ScoredTeam)
    (h : List.Pairwise pointsDesc teams) : descendingByPoints teams = true := by
  cases teams with
  | nil => rfl
  | cons t ts => exact pairwise_descendingFrom ts t h

theorem sortTeamsByPoints_sorted (teams : List ScoredTeam) :
    List.Pairwise pointsDesc (sortTeamsByPoints teams) := by
  haveI : IsTotal ScoredTeam pointsDesc := ⟨fun a b => Int.le_total b.points a.points⟩
  haveI : IsTrans ScoredTeam pointsDesc := ⟨fun _ _ _ h1 h2 => le_trans h2 h1⟩
  exact List.sorted_insertionSort pointsDesc teams

/-- Six teams whose sorted scores are the spec's test vector
`[50, 50, 30, 30, 30, 10]`. -/
def exScoredTeams : List ScoredTeam :=
  [{ id := "t1", name := "T1", isActive := none, points := 50 },
   { id := "t2", name := "T2", isActive := none, points := 50 },
   { id := "t3", name := "T3", isActive := none, points := 30 },
   { id := "t4", name := "T4", isActive := none, points := 30 },
   { id := "t5", name := "T5", isActive := none, points := 30 },
   { id := "t6", name := "T6", isActive := none, points := 10 }]

/-- Claim C1: on every non-empty list of teams sorted by non-increasing
score, the ranking loop assigns exactly the ranks of the claim's rule (rank
1 first; keep the current rank when the score equals the last-seen distinct
score, otherwise take the 1-based position and update the last-seen
score); in particular scores `[50, 50, 30, 30, 30, 10]` receive ranks
`[1, 1, 3, 3, 3, 6]` and not `[1, 1, 2, 2, 2, 3]`. -/
theorem leaderboard_dense_ranking (teams : List ScoredTeam)
    (h1 : teams ≠ []) (h2 : descendingByPoints teams = true) :
    (rankedTeamsData teams).map RankedTeam.rank = specRanking (teams.map ScoredTeam.points)
    ∧ (rankedTeamsData exScoredTeams).map RankedTeam.rank = [1, 1, 3, 3, 3, 6]
    ∧ (rankedTeamsData exScoredTeams).map RankedTeam.rank ≠ [1, 1, 2, 2, 2, 3] := by
  refine ⟨?_, by decide, by decide⟩
  cases teams with
  | nil => exact absurd rfl h1
  | cons t0 ts =>
    have hd : descendingFrom t0.points ts = true := h2
    have hstep : rankedTeamsData (t0 :: ts)
        = { team := t0, rank := 1 } :: rankLoop ts 1 1 t0.points := by
      simp [rankedTeamsData, rankLoop]
    rw [hstep]
    simp only [List.map_cons, specRanking]
    exact congrArg (List.cons 1) (rankLoop_spec_ranks ts 1 1 t0.points (by omega) hd)

/-- Witness for C1: on the six-team example the loop's ranks agree with the
claim's rule. -/
theorem leaderboard_dense_ranking_witness :
    (rankedTeamsData exScoredTeams).map RankedTeam.rank
      = specRanking (exScoredTeams.map ScoredTeam.points) :=
  (leaderboard_dense_ranking exScoredTeams (by decide) (by decide)).1

/-- Claim C10: for every non-empty list of active teams and score table, the
ranking pipeline outputs exactly the input teams joined with their scores
(missing entries as 0) as a permutation, ordered by non-increasing points;
the first output rank is 1; every rank is at most the team's 1-based
position; ranks are non-decreasing along the output; and two adjacent
output teams share a rank exactly when they share a score. -/
theorem ranking_pipeline_invariants (activeTeams : List Team)
    (scores : String → Option Int) (h : activeTeams ≠ []) :
    ((computeRankedTeams activeTeams scores).map RankedTeam.team).Perm
        (activeTeams.map (withScore scores))
    ∧ List.Pairwise pointsDesc ((computeRankedTeams activeTeams scores).map RankedTeam.team)
    ∧ ((computeRankedTeams activeTeams scores).map RankedTeam.rank).head? = some 1
    ∧ (∀ (j : Nat) (hj : j < (computeRankedTeams activeTeams scores).length),
        ((computeRankedTeams activeTeams scores)[j]).rank ≤ j + 1)
    ∧ List.Chain' (fun a b => a.rank ≤ b.rank) (computeRankedTeams activeTeams scores)
    ∧ List.Chain' (fun a b => (a.rank = b.rank ↔ a.team.points = b.team.points))
        (computeRankedTeams activeTeams scores) := by
  have hmap : (computeRankedTeams activeTeams scores).map RankedTeam.team
      = sortTeamsByPoints (activeTeams.map (withScore scores)) :=
    rankedTeamsData_map_team _
  have hperm : (sortTeamsByPoints (activeTeams.map (withScore scores))).Perm
      (activeTeams.map (withScore scores)) :=
    List.perm_insertionSort pointsDesc _
  have hpair : List.Pairwise pointsDesc (sortTeamsByPoints (activeTeams.map (withScore scores))) :=
    sortTeamsByPoints_sorted _
  have hne : sortTeamsByPoints (activeTeams.map (withScore scores)) ≠ [] := by
    intro h0
    rw [h0] at hperm
    have hn : activeTeams.map (withScore scores) = [] := hperm.symm.eq_nil
    exact h (List.map_eq_nil_iff.mp hn)
  refine ⟨?_, ?_, ?_, ?_, ?_, ?_⟩
  · rw [hmap]
    exact hperm
  · rw [hmap]
    exact hpair
  · exact rankedTeamsData_head_rank _ hne
  · intro j hj
    exact rankedTeamsData_rank_le _ j hj
  · exact rankedTeamsData_chain_le _
  · exact rankedTeamsData_chain_rank_iff _ (pairwise_descendingByPoints _ hpair)

/-- Three active teams for the pipeline witness. -/
def exTeams : List Team :=
  [{ id := "t1", name := "Alfa", isActive := none },
   { id := "t2", name := "Beta", isActive := none },
   { id := "t3", name := "Gama", isActive := none }]

/-- A score table for the witness in which one team has no entry. -/
def exScores : String → Option Int :=
  fun id => if id = "t1" then some 30 else if id = "t2" then some 50 else none

/-- Witness for C10: on the three-team example the first output rank is 1. -/
theorem ranking_pipeline_invariants_witness :
    ((computeRankedTeams exTeams exScores).map RankedTeam.rank).head? = some 1 :=
  (ranking_pipeline_invariants exTeams exScores (by decide)).2.2.1
